import Mathlib

/-!
Verification of the temporal reasoning core of `coreason-chronos`.

Shallow embedding conventions:
* A timezone-aware Python `datetime` is modelled as an absolute instant:
  an integer count of microseconds (`Int`).  Comparison of two aware
  datetimes in Python compares exactly these absolute instants, and
  `astimezone(timezone.utc)` does not change the instant, so UTC
  normalization is the identity in this model.
* Where the code checks `dt.tzinfo is None`, datetimes are modelled as a
  structure carrying the instant together with an `aware : Bool` flag.
* A Python `timedelta` is an integer count of microseconds.
* Fallible code returns `Except String`.
-/

/-- A Python `datetime`: an absolute instant in microseconds plus a flag
recording whether the object is timezone-aware (`tzinfo is not None`). -/
structure DateTime where
  us : Int
  aware : Bool
deriving DecidableEq, Repr

/-- `causality.AllenRelation`: the 13 basic relations of Allen's interval
algebra, in the declaration order of `causality.py`. -/
inductive AllenRelation where
  | BEFORE | AFTER | MEETS | MET_BY | OVERLAPS | OVERLAPPED_BY
  | STARTS | STARTED_BY | FINISHES | FINISHED_BY | DURING | CONTAINS | EQUALS
deriving DecidableEq, Repr

/-- The string value of each `causality.AllenRelation` member
(the enum is a `str` enum whose value equals its name). -/
def AllenRelation.tag : AllenRelation → String
  | .BEFORE => "BEFORE"
  | .AFTER => "AFTER"
  | .MEETS => "MEETS"
  | .MET_BY => "MET_BY"
  | .OVERLAPS => "OVERLAPS"
  | .OVERLAPPED_BY => "OVERLAPPED_BY"
  | .STARTS => "STARTS"
  | .STARTED_BY => "STARTED_BY"
  | .FINISHES => "FINISHES"
  | .FINISHED_BY => "FINISHED_BY"
  | .DURING => "DURING"
  | .CONTAINS => "CONTAINS"
  | .EQUALS => "EQUALS"

/-- The converse map on Allen relations, as the spec lists it:
BEFORE↔AFTER, MEETS↔MET_BY, OVERLAPS↔OVERLAPPED_BY, STARTS↔STARTED_BY,
FINISHES↔FINISHED_BY, DURING↔CONTAINS, EQUALS↔EQUALS. -/
def AllenRelation.converse : AllenRelation → AllenRelation
  | .BEFORE => .AFTER
  | .AFTER => .BEFORE
  | .MEETS => .MET_BY
  | .MET_BY => .MEETS
  | .OVERLAPS => .OVERLAPPED_BY
  | .OVERLAPPED_BY => .OVERLAPS
  | .STARTS => .STARTED_BY
  | .STARTED_BY => .STARTS
  | .FINISHES => .FINISHED_BY
  | .FINISHED_BY => .FINISHES
  | .DURING => .CONTAINS
  | .CONTAINS => .DURING
  | .EQUALS => .EQUALS

/-- `utils.algebra.IntervalRelation`: the same 13 relations, as declared in
`utils/algebra.py` (a distinct enum class in the source). -/
inductive IntervalRelation where
  | EQUALS | BEFORE | AFTER | MEETS | MET_BY | OVERLAPS | OVERLAPPED_BY
  | STARTS | STARTED_BY | FINISHES | FINISHED_BY | DURING | CONTAINS
deriving DecidableEq, Repr

/-- The string value of each `utils.algebra.IntervalRelation` member. -/
def IntervalRelation.tag : IntervalRelation → String
  | .EQUALS => "EQUALS"
  | .BEFORE => "BEFORE"
  | .AFTER => "AFTER"
  | .MEETS => "MEETS"
  | .MET_BY => "MET_BY"
  | .OVERLAPS => "OVERLAPS"
  | .OVERLAPPED_BY => "OVERLAPPED_BY"
  | .STARTS => "STARTS"
  | .STARTED_BY => "STARTED_BY"
  | .FINISHES => "FINISHES"
  | .FINISHED_BY => "FINISHED_BY"
  | .DURING => "DURING"
  | .CONTAINS => "CONTAINS"

namespace Causality

/-- The dispatch chain of `causality.get_interval_relation` after the four
timezone checks: interval validity, then the 13 guards in source order,
then the declared-unreachable fallthrough.  Instants in microseconds. -/
def classify (start_a end_a start_b end_b : Int) : Except String AllenRelation :=
  if start_a ≥ end_a then
    .error "Interval A is invalid: start_a must be strictly before end_a (no point events allowed)"
  else if start_b ≥ end_b then
    .error "Interval B is invalid: start_b must be strictly before end_b (no point events allowed)"
  else if end_a < start_b then .ok .BEFORE
  else if start_a > end_b then .ok .AFTER
  else if end_a = start_b then .ok .MEETS
  else if start_a = end_b then .ok .MET_BY
  else if start_a < start_b ∧ start_b < end_a ∧ end_a < end_b then .ok .OVERLAPS
  else if start_b < start_a ∧ start_a < end_b ∧ end_b < end_a then .ok .OVERLAPPED_BY
  else if start_a = start_b ∧ end_a < end_b then .ok .STARTS
  else if start_a = start_b ∧ end_a > end_b then .ok .STARTED_BY
  else if end_a = end_b ∧ start_a > start_b then .ok .FINISHES
  else if end_a = end_b ∧ start_a < start_b then .ok .FINISHED_BY
  else if start_a > start_b ∧ end_a < end_b then .ok .DURING
  else if start_a < start_b ∧ end_a > end_b then .ok .CONTAINS
  else if start_a = start_b ∧ end_a = end_b then .ok .EQUALS
  else .error "Unable to determine relation. This code path should be unreachable."

/-- `causality.get_interval_relation`: validates timezone-awareness of the
four datetimes in argument order, then dispatches on the instants. -/
def get_interval_relation (start_a end_a start_b end_b : DateTime) : Except String AllenRelation :=
  if start_a.aware = false then .error "start_a must be timezone-aware"
  else if end_a.aware = false then .error "end_a must be timezone-aware"
  else if start_b.aware = false then .error "start_b must be timezone-aware"
  else if end_b.aware = false then .error "end_b must be timezone-aware"
  else classify start_a.us end_a.us start_b.us end_b.us

end Causality

namespace Algebra

/-- `utils.algebra.get_interval_relation`: validity checks, then the 13
guards in the order of `utils/algebra.py` (EQUALS first, the OVERLAPS pair
last).  The Python function performs no timezone validation; instants are
absolute microseconds. -/
def get_interval_relation (start1 end1 start2 end2 : Int) : Except String IntervalRelation :=
  if start1 ≥ end1 then
    .error "Interval 1 invalid: start must be strictly before end"
  else if start2 ≥ end2 then
    .error "Interval 2 invalid: start must be strictly before end"
  else if start1 = start2 ∧ end1 = end2 then .ok .EQUALS
  else if end1 < start2 then .ok .BEFORE
  else if start1 > end2 then .ok .AFTER
  else if end1 = start2 then .ok .MEETS
  else if start1 = end2 then .ok .MET_BY
  else if start1 = start2 ∧ end1 < end2 then .ok .STARTS
  else if start1 = start2 ∧ end1 > end2 then .ok .STARTED_BY
  else if end1 = end2 ∧ start1 > start2 then .ok .FINISHES
  else if end1 = end2 ∧ start1 < start2 then .ok .FINISHED_BY
  else if start1 > start2 ∧ end1 < end2 then .ok .DURING
  else if start1 < start2 ∧ end1 > end2 then .ok .CONTAINS
  else if start1 < start2 ∧ start2 < end1 ∧ end1 < end2 then .ok .OVERLAPS
  else if start2 < start1 ∧ start1 < end2 ∧ end2 < end1 then .ok .OVERLAPPED_BY
  else .error "Could not determine relationship"

end Algebra

/-- A Python exception class, where the distinction matters: the causality
engine catches `ValueError` but lets other exceptions (notably `TypeError`
from comparing naive and aware datetimes) propagate. -/
inductive PyErr where
  | valueError : String → PyErr
  | typeError : String → PyErr
deriving DecidableEq, Repr

/-- The temporal fields of `schemas.TemporalEvent` (the model used by the
causality engine).  `id`, `description`, `granularity` and `source_snippet`
do not enter any temporal computation and are omitted. -/
structure TemporalEvent where
  timestamp : DateTime
  duration_minutes : Option Int := none
  ends_at : Option DateTime := none
deriving DecidableEq, Repr

namespace Schemas

/-- The validation performed when constructing `schemas.TemporalEvent`, in
pydantic execution order: the `timestamp` field validator (awareness), the
`duration_minutes` field validator (non-negativity), then the model
validator `ends_at_must_be_after_timestamp`.  Comparing a naive `ends_at`
with an aware `timestamp` in the model validator raises `TypeError` in
Python; `schemas.py` has no consistency check between `duration_minutes`
and `ends_at`. -/
def validates (timestamp : DateTime) (duration_minutes : Option Int)
    (ends_at : Option DateTime) : Except PyErr Unit :=
  if timestamp.aware = false then
    .error (.valueError "timestamp must be timezone-aware")
  else if duration_minutes.any (fun v => decide (v < 0)) then
    .error (.valueError "duration_minutes must be non-negative")
  else if ends_at.any (fun e => decide (e.aware ≠ timestamp.aware)) then
    .error (.typeError "cannot compare offset-naive and offset-aware datetimes")
  else if ends_at.any (fun e => decide (e.us ≤ timestamp.us)) then
    .error (.valueError "ends_at must be after timestamp")
  else .ok ()

end Schemas

namespace Models

/-- The validation performed when constructing `models.TemporalEvent`:
the `enforce_utc` field validator on `timestamp` and `ends_at`
(awareness; UTC conversion is the identity on absolute instants), the
`Field(ge=0)` constraint on `duration_minutes`, then the model validator
`check_duration_consistency`.  `models.py` has no `ends_at > timestamp`
check. -/
def validates (timestamp : DateTime) (duration_minutes : Option Int)
    (ends_at : Option DateTime) : Except PyErr Unit :=
  if timestamp.aware = false then
    .error (.valueError "Timestamp must be timezone-aware.")
  else if ends_at.any (fun e => !e.aware) then
    .error (.valueError "Timestamp must be timezone-aware.")
  else if duration_minutes.any (fun v => decide (v < 0)) then
    .error (.valueError "Input should be greater than or equal to 0")
  else
    match duration_minutes, ends_at with
    | some d, some e =>
      if timestamp.us + 60000000 * d ≠ e.us then
        .error (.valueError "Inconsistent time definition: timestamp + duration_minutes != ends_at")
      else .ok ()
    | _, _ => .ok ()

end Models

namespace Causality

/-- `CausalityEngine._resolve_interval`: `end = ends_at` if set, else
`timestamp + duration_minutes` if set; a missing or non-positive end is
promoted to the epsilon interval `timestamp + 1 microsecond`.  One minute
is 60000000 microseconds.  The Python comparison `end <= start` raises
`TypeError` when exactly one of the two datetimes is naive. -/
def resolve_interval (event : TemporalEvent) : Except String (DateTime × DateTime) :=
  let start := event.timestamp
  let stop : Option DateTime :=
    match event.ends_at with
    | some e => some e
    | none =>
      match event.duration_minutes with
      | some d => some ⟨start.us + 60000000 * d, start.aware⟩
      | none => none
  match stop with
  | none => .ok (start, ⟨start.us + 1, start.aware⟩)
  | some e =>
    if e.aware ≠ start.aware then
      .error "cannot compare offset-naive and offset-aware datetimes"
    else if e.us ≤ start.us then .ok (start, ⟨start.us + 1, start.aware⟩)
    else .ok (start, e)

/-- `CausalityEngine.get_relation`: resolve both events, then classify.
A `TypeError` from `_resolve_interval` propagates as such; algebra errors
are `ValueError`s. -/
def get_relation (event_a event_b : TemporalEvent) : Except PyErr AllenRelation :=
  match resolve_interval event_a with
  | .error m => .error (.typeError m)
  | .ok (start_a, end_a) =>
    match resolve_interval event_b with
    | .error m => .error (.typeError m)
    | .ok (start_b, end_b) =>
      match get_interval_relation start_a end_a start_b end_b with
      | .error m => .error (.valueError m)
      | .ok r => .ok r

/-- The set of plausible relations in `CausalityEngine.is_plausible_cause`. -/
def plausible_relations : List AllenRelation :=
  [.BEFORE, .MEETS, .OVERLAPS, .FINISHED_BY, .CONTAINS, .STARTS, .STARTED_BY, .EQUALS]

/-- `CausalityEngine.is_plausible_cause`: computes the relation, trapping
`ValueError` to `False`; membership in the plausible set otherwise.  Other
exceptions propagate. -/
def is_plausible_cause (cause effect : TemporalEvent) : Except PyErr Bool :=
  match get_relation cause effect with
  | .error (.valueError _) => .ok false
  | .error e => .error e
  | .ok relation => .ok (decide (relation ∈ plausible_relations))

end Causality

/-- `schemas.ComplianceResult` with `drift` as a timedelta in microseconds. -/
structure ComplianceResult where
  is_compliant : Bool
  drift : Int
  message : Option String
deriving DecidableEq, Repr

namespace Validator

/-- `validator.MaxDelayRule` (state after a successful `__init__`). -/
structure MaxDelayRule where
  max_delay : Int
deriving DecidableEq, Repr

/-- `MaxDelayRule.__init__`: rejects a negative `max_delay`
(`total_seconds() < 0` exactly when the microsecond count is negative). -/
def MaxDelayRule.make (max_delay : Int) : Except String MaxDelayRule :=
  if max_delay < 0 then .error "max_delay must be non-negative"
  else .ok ⟨max_delay⟩

/-- `MaxDelayRule.validate`: timezone check, UTC normalization (the
identity on absolute instants), `deadline = reference + max_delay`,
`drift = target - deadline`, `is_compliant = target <= deadline`.  The
violation message interpolates the drift; its rendering is abstracted by
`toString`. -/
def MaxDelayRule.validate (rule : MaxDelayRule) (target_time reference_time : DateTime) :
    Except String ComplianceResult :=
  if target_time.aware = false ∨ reference_time.aware = false then
    .error "Both target_time and reference_time must be timezone-aware"
  else
    let deadline := reference_time.us + rule.max_delay
    let drift := target_time.us - deadline
    let is_compliant := target_time.us ≤ deadline
    .ok
      { is_compliant := is_compliant
        drift := drift
        message :=
          if is_compliant then none
          else some ("Violation: Event occurred " ++ toString drift ++ " after the deadline.") }

end Validator

/-- An event accepted by the `schemas.TemporalEvent` constructor (the
model every engine input passes through). -/
def ValidEvent (e : TemporalEvent) : Prop :=
  Schemas.validates e.timestamp e.duration_minutes e.ends_at = .ok ()

namespace Timeline

/-- The duration units of the anchor regex, already normalized the way
`_parse_duration` normalizes its `unit` string (lower-cased, plural). -/
inductive DurationUnit where
  | years | months | weeks | days | hours | minutes | seconds
deriving DecidableEq, Repr

/-- Python `int()` on a number: truncation toward zero.  Values reaching
`_parse_duration` are decimal literals captured by the regexes, modelled
as rationals. -/
def truncToZero (q : Rat) : Int :=
  if 0 ≤ q then ⌊q⌋ else ⌈q⌉

/-- `TimelineExtractor._parse_duration`: the keyword argument passed to
`relativedelta` — both branches of the tolerance test pass the truncated
integer `int(value)`. -/
def parse_duration (value : Rat) (unit : DurationUnit) : DurationUnit × Int :=
  let int_val := truncToZero value
  if |value - int_val| < 1 / 1000 then (unit, int_val)
  else (unit, truncToZero value)

/-- Microseconds of one fixed unit.  Months and years are calendar-variable
(`relativedelta` applies calendar arithmetic to them) and have no fixed
size. -/
def DurationUnit.fixedMicros : DurationUnit → Option Int
  | .weeks => some (7 * 86400000000)
  | .days => some 86400000000
  | .hours => some 3600000000
  | .minutes => some 60000000
  | .seconds => some 1000000
  | _ => none

/-- Applying a parsed fixed-unit delta to an instant, per `relativedelta`
semantics for integer fixed-unit keyword arguments. -/
def applyFixedDelta (p : DurationUnit × Int) (t : Int) : Option Int :=
  p.1.fixedMicros.map (fun u => t + p.2 * u)

/-- The delta the spec's words promise for a fixed unit: exact, admitting
fractional values (`value * unit` microseconds).  Stated from the spec for
comparison with `parse_duration`. -/
def specFixedDelta (value : Rat) (unit : DurationUnit) (t : Int) : Option Rat :=
  unit.fixedMicros.map (fun u => (t : Rat) + value * (u : Rat))

/-- The final step of `extract_events`:
`final_events.sort(key=lambda x: x.timestamp)`.  Python's `list.sort` is
stable; a stable sort by a fixed key is unique, so it is modelled by the
stable `List.insertionSort` with the timestamp (absolute instant) as key. -/
def sort_events (l : List TemporalEvent) : List TemporalEvent :=
  l.insertionSort (fun a b => a.timestamp.us ≤ b.timestamp.us)

/-- Python text positions are character indices; text is a list of
characters.  `t[a:b]`. -/
def slice (s : List Char) (a b : Nat) : List Char := (s.drop a).take (b - a)

/-- Python `str.lower()` (ASCII scope, which covers the repository's
regex-constrained inputs). -/
def pyLower (s : List Char) : List Char := s.map Char.toLower

/-- Python `str.strip()`. -/
def pyStrip (s : List Char) : List Char :=
  ((s.dropWhile Char.isWhitespace).reverse.dropWhile Char.isWhitespace).reverse

/-- A regex `\w` character (ASCII scope). -/
def isWordChar (c : Char) : Bool := c.isAlphanum || c = '_'

/-- `TimelineExtractor._get_context_description`: the ±50-character window
around a span, trimmed, newlines collapsed to spaces. -/
def _get_context_description (text : List Char) (start stop : Nat) : List Char :=
  let window := 50
  let ctx_start := start - window
  let ctx_stop := min text.length (stop + window)
  (pyStrip (slice text ctx_start ctx_stop)).map (fun c => if c = '\n' then ' ' else c)

/-- `re.sub(r"[^\w\s]", "", s.lower())` inside `normalize`. -/
def cleanChars (s : List Char) : List Char :=
  (pyLower s).filter (fun c => isWordChar c || c.isWhitespace)

/-- Python `str.split()` with no separator: split on whitespace runs,
yielding no empty pieces. -/
def splitWsAux : List Char → List Char → List (List Char)
  | [], acc => if acc.isEmpty then [] else [acc.reverse]
  | c :: rest, acc =>
    if c.isWhitespace then
      if acc.isEmpty then splitWsAux rest []
      else acc.reverse :: splitWsAux rest []
    else splitWsAux rest (c :: acc)

def splitWs (s : List Char) : List (List Char) := splitWsAux s []

/-- `normalize` inside `_calculate_semantic_score`: lower-case, strip
punctuation, split on whitespace, take the set of tokens (modelled as a
deduplicated list: membership and cardinality are what the scorer uses). -/
def normalize (s : List Char) : List (List Char) := (splitWs (cleanChars s)).dedup

/-- The fixed English stop-word set of `_calculate_semantic_score`. -/
def stop_words : List (List Char) :=
  (["the", "a", "an", "of", "to", "in", "on", "at", "for", "with", "by"].map
    String.toList)

/-- `TimelineExtractor._calculate_semantic_score`: the overlap coefficient
`|anchor ∩ target| / |anchor|` after stop-word removal, 0 on an empty
anchor token set.  The Python float ratio of these small integer
cardinalities is modelled as a rational. -/
def _calculate_semantic_score (anchor target_text : List Char) : Rat :=
  let anchor_tokens := (normalize anchor).filter (fun w => decide (¬ w ∈ stop_words))
  let target_tokens := (normalize target_text).filter (fun w => decide (¬ w ∈ stop_words))
  if anchor_tokens.isEmpty then 0
  else
    ((anchor_tokens.filter (fun w => decide (w ∈ target_tokens))).length : Rat) /
      (anchor_tokens.length : Rat)

/-- An event as the anchor-resolution pass sees it: its (UTC-absolute)
timestamp and the two strings the fuzzy matcher scores against. -/
structure ExtractedEvent where
  timestamp : Int
  description : List Char
  source_snippet : List Char
deriving DecidableEq, Repr

/-- The `resolved_events_meta` record of `extract_events` (`end` is a Lean
keyword; the field is named `stop`). -/
structure ResolvedMeta where
  event : ExtractedEvent
  start : Nat
  stop : Nat
  snippet : List Char
  is_anchored : Bool
deriving DecidableEq, Repr

/-- Direction of an anchored expression. -/
inductive Direction where
  | after | before
deriving DecidableEq, Repr

/-- An entry of `_extract_anchored_candidates`. -/
structure AnchorCandidate where
  duration_val : Rat
  unit : DurationUnit
  direction : Direction
  anchor_phrase : List Char
  start : Nat
  stop : Nat
  full_match : List Char
deriving DecidableEq, Repr

/-- `re.finditer(re.escape(anchor), text, re.IGNORECASE)`: the
non-overlapping, leftmost case-insensitive literal occurrences, as
(start, end) spans. -/
def occAux (pat : List Char) : Nat → List Char → Nat → List (Nat × Nat)
  | 0, _, _ => []
  | _ + 1, [], _ => []
  | fuel + 1, c :: rest, pos =>
    if pat.isPrefixOf (c :: rest) then
      (pos, pos + pat.length) :: occAux pat fuel (rest.drop (pat.length - 1)) (pos + pat.length)
    else occAux pat fuel rest (pos + 1)

def findOccurrences (text pat : List Char) : List (Nat × Nat) :=
  occAux (pyLower pat) text.length (pyLower text) 0

/-- `TimelineExtractor._find_closest_event`: the first meta attaining the
minimal gap to the target span (strict improvement updates). -/
def _find_closest_event (target_start target_stop : Nat)
    (events_meta : List ResolvedMeta) : Option ResolvedMeta :=
  (events_meta.foldl
    (fun best meta =>
      let dist : Int :=
        if max target_start meta.start < min target_stop meta.stop then 0
        else if target_stop ≤ meta.start then (meta.start : Int) - (target_stop : Int)
        else (target_start : Int) - (meta.stop : Int)
      match best with
      | none => some (meta, dist)
      | some (bm, bd) => if dist < bd then some (meta, dist) else some (bm, bd))
    none).map (·.1)

/-- Strategy A of the per-candidate loop body: scan for occurrences of the
anchor phrase outside the candidate's own span; for each, link the closest
resolved event; keep the globally closest, with its distance. -/
def strategyA (text : List Char) (cand : AnchorCandidate) (metas : List ResolvedMeta) :
    Option (ExtractedEvent × Int) :=
  (findOccurrences text cand.anchor_phrase).foldl
    (fun best occ =>
      if max cand.start occ.1 < min cand.stop occ.2 then best
      else
        match _find_closest_event occ.1 occ.2 metas with
        | none => best
        | some match_meta =>
          let dist : Int :=
            if max occ.1 match_meta.start < min occ.2 match_meta.stop then 0
            else if occ.2 ≤ match_meta.start then
              (match_meta.start : Int) - (occ.2 : Int)
            else (occ.1 : Int) - (match_meta.stop : Int)
          match best with
          | none => some (match_meta.event, dist)
          | some (be, bd) =>
            if dist < bd then some (match_meta.event, dist) else some (be, bd))
    none

/-- The context window of an event, with the bytes overlapping the
candidate's span masked out (outer parts joined by a single space,
trimmed, newlines collapsed); the event description verbatim when there is
no overlap. -/
def maskedContext (text : List Char) (m : ResolvedMeta) (candStart candStop : Nat) :
    List Char :=
  let window := 50
  let d_start := m.start - window
  let d_stop := min text.length (m.stop + window)
  if max d_start candStart < min d_stop candStop then
    let p1_stop := max d_start candStart
    let part1 := slice text d_start p1_stop
    let p2_start := min d_stop candStop
    let part2 := slice text p2_start d_stop
    (pyStrip (part1 ++ [' '] ++ part2)).map (fun c => if c = '\n' then ' ' else c)
  else m.event.description

/-- An entry of the `fuzzy_candidates` list. -/
structure FuzzyCandidate where
  event : ExtractedEvent
  score : Rat
  dist : Int
deriving DecidableEq, Repr

/-- Strategy B of the per-candidate loop body: every resolved event whose
best score (masked context window or source snippet) reaches 0.5, with
`distance = max(0, signed gap)`. -/
def fuzzyCandidates (text : List Char) (cand : AnchorCandidate)
    (metas : List ResolvedMeta) : List FuzzyCandidate :=
  metas.foldr
    (fun meta acc =>
      let masked := maskedContext text meta cand.start cand.stop
      let score_desc := _calculate_semantic_score cand.anchor_phrase masked
      let score_snip := _calculate_semantic_score cand.anchor_phrase meta.event.source_snippet
      let score := max score_desc score_snip
      if score ≥ 1 / 2 then
        let dist0 : Int :=
          if cand.start > meta.start then (cand.start : Int) - (meta.stop : Int)
          else (meta.start : Int) - (cand.stop : Int)
        ⟨meta.event, score, max 0 dist0⟩ :: acc
      else acc)
    []

/-- The Python sort key `(-score, dist)` as a total preorder. -/
def fuzzyLE (a b : FuzzyCandidate) : Prop :=
  a.score > b.score ∨ (a.score = b.score ∧ a.dist ≤ b.dist)

instance : DecidableRel fuzzyLE := fun a b => by
  unfold fuzzyLE
  infer_instance

/-- `fuzzy_candidates.sort(key=lambda x: (-x["score"], x["dist"]))` —
Python's stable sort, modelled by the stable insertion sort. -/
def sortFuzzy (l : List FuzzyCandidate) : List FuzzyCandidate :=
  l.insertionSort fuzzyLE

/-- The per-candidate resolution step of Pass 4 (the body of
`for cand in unresolved_candidates`): Strategy A, then the fuzzy
candidates; a fuzzy best overrides an exact match only with score ≥ 1.0
and a strictly smaller distance; the candidate resolves iff either
strategy produced an event.  (`sortFuzzy` is empty exactly when
`fuzzy_candidates` is.) -/
def resolveCandidateStep (text : List Char) (cand : AnchorCandidate)
    (metas : List ResolvedMeta) : Option ExtractedEvent :=
  let bestA := strategyA text cand metas
  match sortFuzzy (fuzzyCandidates text cand metas) with
  | [] => bestA.map (·.1)
  | best :: _ =>
    match bestA with
    | some (be, bd) =>
      if best.score ≥ 1 ∧ best.dist < bd then some best.event else some be
    | none => some best.event

end Timeline

/-- Concrete extraction state for the anchored phrase
"2 days after gamma delta": one resolved event ("Jan 1", spans 13-18),
whose context window ends 53 characters before the free-standing
occurrence of "gamma delta" at 82-93. -/
def c2text : List Char :=
  ("Admission on Jan 1 at the clinic for a routine check today. " ++
   "Later the patient met gamma delta staff at the desk. " ++
   "Checkup 2 days after gamma delta.").toList

/-- The single resolved event of the concrete state. -/
def c2event : Timeline.ExtractedEvent :=
  { timestamp := 1704067200000000
    description := Timeline._get_context_description c2text 13 18
    source_snippet := ("Jan 1").toList }

/-- Its position record. -/
def c2meta : Timeline.ResolvedMeta :=
  { event := c2event, start := 13, stop := 18
    snippet := ("Jan 1").toList, is_anchored := false }

/-- The anchor candidate "2 days after gamma delta." spanning 121-146. -/
def c2cand : Timeline.AnchorCandidate :=
  { duration_val := 2, unit := .days, direction := .after
    anchor_phrase := ("gamma delta").toList
    start := 121, stop := 146
    full_match := ("2 days after gamma delta.").toList }

set_option maxHeartbeats 2000000
set_option maxRecDepth 8000

/-- Characterization of `Causality.classify` on valid intervals: it returns
some relation, and the returned relation is each given tag exactly when the
corresponding endpoint condition holds. -/
lemma causality_classify_char (sa ea sb eb : Int) (ha : sa < ea) (hb : sb < eb) :
    ∃ r, Causality.classify sa ea sb eb = .ok r ∧
      (r = .BEFORE ↔ ea < sb) ∧
      (r = .AFTER ↔ sa > eb) ∧
      (r = .MEETS ↔ ea = sb) ∧
      (r = .MET_BY ↔ sa = eb) ∧
      (r = .OVERLAPS ↔ sa < sb ∧ sb < ea ∧ ea < eb) ∧
      (r = .OVERLAPPED_BY ↔ sb < sa ∧ sa < eb ∧ eb < ea) ∧
      (r = .STARTS ↔ sa = sb ∧ ea < eb) ∧
      (r = .STARTED_BY ↔ sa = sb ∧ ea > eb) ∧
      (r = .FINISHES ↔ ea = eb ∧ sa > sb) ∧
      (r = .FINISHED_BY ↔ ea = eb ∧ sa < sb) ∧
      (r = .DURING ↔ sa > sb ∧ ea < eb) ∧
      (r = .CONTAINS ↔ sa < sb ∧ ea > eb) ∧
      (r = .EQUALS ↔ sa = sb ∧ ea = eb) := by
  generalize hres : Causality.classify sa ea sb eb = res
  unfold Causality.classify at hres
  rw [if_neg (by omega : ¬ sa ≥ ea), if_neg (by omega : ¬ sb ≥ eb)] at hres
  by_cases h1 : ea < sb
  · rw [if_pos h1] at hres
    subst hres
    exact ⟨_, rfl, by simp only [reduceCtorEq, true_iff, false_iff, eq_self_iff_true]; omega⟩
  rw [if_neg h1] at hres
  by_cases h2 : sa > eb
  · rw [if_pos h2] at hres
    subst hres
    exact ⟨_, rfl, by simp only [reduceCtorEq, true_iff, false_iff, eq_self_iff_true]; omega⟩
  rw [if_neg h2] at hres
  by_cases h3 : ea = sb
  · rw [if_pos h3] at hres
    subst hres
    exact ⟨_, rfl, by simp only [reduceCtorEq, true_iff, false_iff, eq_self_iff_true]; omega⟩
  rw [if_neg h3] at hres
  by_cases h4 : sa = eb
  · rw [if_pos h4] at hres
    subst hres
    exact ⟨_, rfl, by simp only [reduceCtorEq, true_iff, false_iff, eq_self_iff_true]; omega⟩
  rw [if_neg h4] at hres
  by_cases h5 : sa < sb ∧ sb < ea ∧ ea < eb
  · rw [if_pos h5] at hres
    subst hres
    exact ⟨_, rfl, by simp only [reduceCtorEq, true_iff, false_iff, eq_self_iff_true]; omega⟩
  rw [if_neg h5] at hres
  by_cases h6 : sb < sa ∧ sa < eb ∧ eb < ea
  · rw [if_pos h6] at hres
    subst hres
    exact ⟨_, rfl, by simp only [reduceCtorEq, true_iff, false_iff, eq_self_iff_true]; omega⟩
  rw [if_neg h6] at hres
  by_cases h7 : sa = sb ∧ ea < eb
  · rw [if_pos h7] at hres
    subst hres
    exact ⟨_, rfl, by simp only [reduceCtorEq, true_iff, false_iff, eq_self_iff_true]; omega⟩
  rw [if_neg h7] at hres
  by_cases h8 : sa = sb ∧ ea > eb
  · rw [if_pos h8] at hres
    subst hres
    exact ⟨_, rfl, by simp only [reduceCtorEq, true_iff, false_iff, eq_self_iff_true]; omega⟩
  rw [if_neg h8] at hres
  by_cases h9 : ea = eb ∧ sa > sb
  · rw [if_pos h9] at hres
    subst hres
    exact ⟨_, rfl, by simp only [reduceCtorEq, true_iff, false_iff, eq_self_iff_true]; omega⟩
  rw [if_neg h9] at hres
  by_cases h10 : ea = eb ∧ sa < sb
  · rw [if_pos h10] at hres
    subst hres
    exact ⟨_, rfl, by simp only [reduceCtorEq, true_iff, false_iff, eq_self_iff_true]; omega⟩
  rw [if_neg h10] at hres
  by_cases h11 : sa > sb ∧ ea < eb
  · rw [if_pos h11] at hres
    subst hres
    exact ⟨_, rfl, by simp only [reduceCtorEq, true_iff, false_iff, eq_self_iff_true]; omega⟩
  rw [if_neg h11] at hres
  by_cases h12 : sa < sb ∧ ea > eb
  · rw [if_pos h12] at hres
    subst hres
    exact ⟨_, rfl, by simp only [reduceCtorEq, true_iff, false_iff, eq_self_iff_true]; omega⟩
  rw [if_neg h12] at hres
  by_cases h13 : sa = sb ∧ ea = eb
  · rw [if_pos h13] at hres
    subst hres
    exact ⟨_, rfl, by simp only [reduceCtorEq, true_iff, false_iff, eq_self_iff_true]; omega⟩
  rw [if_neg h13] at hres
  exfalso; omega

/-- Characterization of `Algebra.get_interval_relation` on valid intervals. -/
lemma algebra_rel_char (s1 e1 s2 e2 : Int) (h1 : s1 < e1) (h2 : s2 < e2) :
    ∃ r, Algebra.get_interval_relation s1 e1 s2 e2 = .ok r ∧
      (r = .BEFORE ↔ e1 < s2) ∧
      (r = .AFTER ↔ s1 > e2) ∧
      (r = .MEETS ↔ e1 = s2) ∧
      (r = .MET_BY ↔ s1 = e2) ∧
      (r = .OVERLAPS ↔ s1 < s2 ∧ s2 < e1 ∧ e1 < e2) ∧
      (r = .OVERLAPPED_BY ↔ s2 < s1 ∧ s1 < e2 ∧ e2 < e1) ∧
      (r = .STARTS ↔ s1 = s2 ∧ e1 < e2) ∧
      (r = .STARTED_BY ↔ s1 = s2 ∧ e1 > e2) ∧
      (r = .FINISHES ↔ e1 = e2 ∧ s1 > s2) ∧
      (r = .FINISHED_BY ↔ e1 = e2 ∧ s1 < s2) ∧
      (r = .DURING ↔ s1 > s2 ∧ e1 < e2) ∧
      (r = .CONTAINS ↔ s1 < s2 ∧ e1 > e2) ∧
      (r = .EQUALS ↔ s1 = s2 ∧ e1 = e2) := by
  generalize hres : Algebra.get_interval_relation s1 e1 s2 e2 = res
  unfold Algebra.get_interval_relation at hres
  rw [if_neg (by omega : ¬ s1 ≥ e1), if_neg (by omega : ¬ s2 ≥ e2)] at hres
  by_cases h1 : s1 = s2 ∧ e1 = e2
  · rw [if_pos h1] at hres
    subst hres
    exact ⟨_, rfl, by simp only [reduceCtorEq, true_iff, false_iff, eq_self_iff_true]; omega⟩
  rw [if_neg h1] at hres
  by_cases h2 : e1 < s2
  · rw [if_pos h2] at hres
    subst hres
    exact ⟨_, rfl, by simp only [reduceCtorEq, true_iff, false_iff, eq_self_iff_true]; omega⟩
  rw [if_neg h2] at hres
  by_cases h3 : s1 > e2
  · rw [if_pos h3] at hres
    subst hres
    exact ⟨_, rfl, by simp only [reduceCtorEq, true_iff, false_iff, eq_self_iff_true]; omega⟩
  rw [if_neg h3] at hres
  by_cases h4 : e1 = s2
  · rw [if_pos h4] at hres
    subst hres
    exact ⟨_, rfl, by simp only [reduceCtorEq, true_iff, false_iff, eq_self_iff_true]; omega⟩
  rw [if_neg h4] at hres
  by_cases h5 : s1 = e2
  · rw [if_pos h5] at hres
    subst hres
    exact ⟨_, rfl, by simp only [reduceCtorEq, true_iff, false_iff, eq_self_iff_true]; omega⟩
  rw [if_neg h5] at hres
  by_cases h6 : s1 = s2 ∧ e1 < e2
  · rw [if_pos h6] at hres
    subst hres
    exact ⟨_, rfl, by simp only [reduceCtorEq, true_iff, false_iff, eq_self_iff_true]; omega⟩
  rw [if_neg h6] at hres
  by_cases h7 : s1 = s2 ∧ e1 > e2
  · rw [if_pos h7] at hres
    subst hres
    exact ⟨_, rfl, by simp only [reduceCtorEq, true_iff, false_iff, eq_self_iff_true]; omega⟩
  rw [if_neg h7] at hres
  by_cases h8 : e1 = e2 ∧ s1 > s2
  · rw [if_pos h8] at hres
    subst hres
    exact ⟨_, rfl, by simp only [reduceCtorEq, true_iff, false_iff, eq_self_iff_true]; omega⟩
  rw [if_neg h8] at hres
  by_cases h9 : e1 = e2 ∧ s1 < s2
  · rw [if_pos h9] at hres
    subst hres
    exact ⟨_, rfl, by simp only [reduceCtorEq, true_iff, false_iff, eq_self_iff_true]; omega⟩
  rw [if_neg h9] at hres
  by_cases h10 : s1 > s2 ∧ e1 < e2
  · rw [if_pos h10] at hres
    subst hres
    exact ⟨_, rfl, by simp only [reduceCtorEq, true_iff, false_iff, eq_self_iff_true]; omega⟩
  rw [if_neg h10] at hres
  by_cases h11 : s1 < s2 ∧ e1 > e2
  · rw [if_pos h11] at hres
    subst hres
    exact ⟨_, rfl, by simp only [reduceCtorEq, true_iff, false_iff, eq_self_iff_true]; omega⟩
  rw [if_neg h11] at hres
  by_cases h12 : s1 < s2 ∧ s2 < e1 ∧ e1 < e2
  · rw [if_pos h12] at hres
    subst hres
    exact ⟨_, rfl, by simp only [reduceCtorEq, true_iff, false_iff, eq_self_iff_true]; omega⟩
  rw [if_neg h12] at hres
  by_cases h13 : s2 < s1 ∧ s1 < e2 ∧ e2 < e1
  · rw [if_pos h13] at hres
    subst hres
    exact ⟨_, rfl, by simp only [reduceCtorEq, true_iff, false_iff, eq_self_iff_true]; omega⟩
  rw [if_neg h13] at hres
  exfalso; omega

/-- On all-aware datetimes, `causality.get_interval_relation` reduces to its
dispatch chain. -/
lemma causality_aware_eq (sa ea sb eb : Int) :
    Causality.get_interval_relation ⟨sa, true⟩ ⟨ea, true⟩ ⟨sb, true⟩ ⟨eb, true⟩ =
      Causality.classify sa ea sb eb := rfl

/-- C1: on timezone-aware instants with `a_start < a_end` and
`b_start < b_end`, `causality.get_interval_relation` returns exactly the tag
of the spec's decision table, each tag holding iff its endpoint condition
holds; a one-microsecond gap between `a_end` and `b_start` is BEFORE; an
invalid interval fails with a `ValueError` (the spec's InvalidInterval). -/
theorem C1_allen_decision_table (sa ea sb eb : Int) :
    (sa < ea → sb < eb →
      ∃ r, Causality.get_interval_relation ⟨sa, true⟩ ⟨ea, true⟩ ⟨sb, true⟩ ⟨eb, true⟩ = .ok r ∧
        (r = .BEFORE ↔ ea < sb) ∧
        (r = .AFTER ↔ sa > eb) ∧
        (r = .MEETS ↔ ea = sb) ∧
        (r = .MET_BY ↔ sa = eb) ∧
        (r = .OVERLAPS ↔ sa < sb ∧ sb < ea ∧ ea < eb) ∧
        (r = .OVERLAPPED_BY ↔ sb < sa ∧ sa < eb ∧ eb < ea) ∧
        (r = .STARTS ↔ sa = sb ∧ ea < eb) ∧
        (r = .STARTED_BY ↔ sa = sb ∧ ea > eb) ∧
        (r = .FINISHES ↔ ea = eb ∧ sa > sb) ∧
        (r = .FINISHED_BY ↔ ea = eb ∧ sa < sb) ∧
        (r = .DURING ↔ sa > sb ∧ ea < eb) ∧
        (r = .CONTAINS ↔ sa < sb ∧ ea > eb) ∧
        (r = .EQUALS ↔ sa = sb ∧ ea = eb)) ∧
    (sa < ea → sb < eb → sb = ea + 1 →
      Causality.get_interval_relation ⟨sa, true⟩ ⟨ea, true⟩ ⟨sb, true⟩ ⟨eb, true⟩ = .ok .BEFORE) ∧
    (ea ≤ sa ∨ eb ≤ sb →
      ∃ msg, Causality.get_interval_relation ⟨sa, true⟩ ⟨ea, true⟩ ⟨sb, true⟩ ⟨eb, true⟩ =
        .error msg) := by
  refine ⟨?_, ?_, ?_⟩
  · intro ha hb
    rw [causality_aware_eq]
    exact causality_classify_char sa ea sb eb ha hb
  · intro ha hb hgap
    rw [causality_aware_eq]
    obtain ⟨r, hok, hB, _⟩ := causality_classify_char sa ea sb eb ha hb
    rw [hok, hB.mpr (by omega)]
  · intro hinv
    rw [causality_aware_eq]
    unfold Causality.classify
    by_cases hA : sa ≥ ea
    · exact ⟨_, by rw [if_pos hA]⟩
    · have hB2 : sb ≥ eb := by omega
      exact ⟨_, by rw [if_neg hA, if_pos hB2]⟩

/-- Witness for C1 at concrete inputs: a one-microsecond gap yields BEFORE,
and an empty interval A fails. -/
theorem C1_allen_decision_table_witness :
    Causality.get_interval_relation ⟨0, true⟩ ⟨10, true⟩ ⟨11, true⟩ ⟨20, true⟩ = .ok .BEFORE ∧
    (∃ msg, Causality.get_interval_relation ⟨10, true⟩ ⟨10, true⟩ ⟨11, true⟩ ⟨20, true⟩ =
      .error msg) := by
  constructor
  · exact (C1_allen_decision_table 0 10 11 20).2.1 (by decide) (by decide) (by decide)
  · exact (C1_allen_decision_table 10 10 11 20).2.2 (Or.inl (by decide))

/-- C6: swapping the two intervals yields the converse Allen relation. -/
theorem C6_relation_converse (sa ea sb eb : Int) (ha : sa < ea) (hb : sb < eb) :
    ∃ r r', Causality.get_interval_relation ⟨sa, true⟩ ⟨ea, true⟩ ⟨sb, true⟩ ⟨eb, true⟩ = .ok r ∧
      Causality.get_interval_relation ⟨sb, true⟩ ⟨eb, true⟩ ⟨sa, true⟩ ⟨ea, true⟩ = .ok r' ∧
      r' = r.converse := by
  obtain ⟨r, hok1, c1, c2, c3, c4, c5, c6, c7, c8, c9, c10, c11, c12, c13⟩ := causality_classify_char sa ea sb eb ha hb
  obtain ⟨r', hok2, k1, k2, k3, k4, k5, k6, k7, k8, k9, k10, k11, k12, k13⟩ := causality_classify_char sb eb sa ea hb ha
  refine ⟨r, r', by rw [causality_aware_eq]; exact hok1,
    by rw [causality_aware_eq]; exact hok2, ?_⟩
  cases r with
  | BEFORE =>
    have g := c1.mp rfl
    exact (k2.mpr (by omega)).trans (by rfl)
  | AFTER =>
    have g := c2.mp rfl
    exact (k1.mpr (by omega)).trans (by rfl)
  | MEETS =>
    have g := c3.mp rfl
    exact (k4.mpr (by omega)).trans (by rfl)
  | MET_BY =>
    have g := c4.mp rfl
    exact (k3.mpr (by omega)).trans (by rfl)
  | OVERLAPS =>
    have g := c5.mp rfl
    exact (k6.mpr (by omega)).trans (by rfl)
  | OVERLAPPED_BY =>
    have g := c6.mp rfl
    exact (k5.mpr (by omega)).trans (by rfl)
  | STARTS =>
    have g := c7.mp rfl
    exact (k8.mpr (by omega)).trans (by rfl)
  | STARTED_BY =>
    have g := c8.mp rfl
    exact (k7.mpr (by omega)).trans (by rfl)
  | FINISHES =>
    have g := c9.mp rfl
    exact (k10.mpr (by omega)).trans (by rfl)
  | FINISHED_BY =>
    have g := c10.mp rfl
    exact (k9.mpr (by omega)).trans (by rfl)
  | DURING =>
    have g := c11.mp rfl
    exact (k12.mpr (by omega)).trans (by rfl)
  | CONTAINS =>
    have g := c12.mp rfl
    exact (k11.mpr (by omega)).trans (by rfl)
  | EQUALS =>
    have g := c13.mp rfl
    exact (k13.mpr (by omega)).trans (by rfl)

/-- Witness for C6 at a concrete overlapping pair. -/
theorem C6_relation_converse_witness :
    ∃ r r', Causality.get_interval_relation ⟨0, true⟩ ⟨10, true⟩ ⟨5, true⟩ ⟨20, true⟩ = .ok r ∧
      Causality.get_interval_relation ⟨5, true⟩ ⟨20, true⟩ ⟨0, true⟩ ⟨10, true⟩ = .ok r' ∧
      r' = r.converse :=
  C6_relation_converse 0 10 5 20 (by decide) (by decide)

/-- C10: the two independently implemented Allen classifiers agree (as
string tags) on every pair of valid intervals over aware instants. -/
theorem C10_classifiers_agree (s1 e1 s2 e2 : Int) (h1 : s1 < e1) (h2 : s2 < e2) :
    ∃ rc ra, Causality.get_interval_relation ⟨s1, true⟩ ⟨e1, true⟩ ⟨s2, true⟩ ⟨e2, true⟩ = .ok rc ∧
      Algebra.get_interval_relation s1 e1 s2 e2 = .ok ra ∧
      rc.tag = ra.tag := by
  obtain ⟨rc, hok1, c1, c2, c3, c4, c5, c6, c7, c8, c9, c10, c11, c12, c13⟩ := causality_classify_char s1 e1 s2 e2 h1 h2
  obtain ⟨ra, hok2, a1, a2, a3, a4, a5, a6, a7, a8, a9, a10, a11, a12, a13⟩ := algebra_rel_char s1 e1 s2 e2 h1 h2
  refine ⟨rc, ra, by rw [causality_aware_eq]; exact hok1, hok2, ?_⟩
  cases rc with
  | BEFORE =>
    have g := c1.mp rfl
    rw [a1.mpr (by omega)]
    rfl
  | AFTER =>
    have g := c2.mp rfl
    rw [a2.mpr (by omega)]
    rfl
  | MEETS =>
    have g := c3.mp rfl
    rw [a3.mpr (by omega)]
    rfl
  | MET_BY =>
    have g := c4.mp rfl
    rw [a4.mpr (by omega)]
    rfl
  | OVERLAPS =>
    have g := c5.mp rfl
    rw [a5.mpr (by omega)]
    rfl
  | OVERLAPPED_BY =>
    have g := c6.mp rfl
    rw [a6.mpr (by omega)]
    rfl
  | STARTS =>
    have g := c7.mp rfl
    rw [a7.mpr (by omega)]
    rfl
  | STARTED_BY =>
    have g := c8.mp rfl
    rw [a8.mpr (by omega)]
    rfl
  | FINISHES =>
    have g := c9.mp rfl
    rw [a9.mpr (by omega)]
    rfl
  | FINISHED_BY =>
    have g := c10.mp rfl
    rw [a10.mpr (by omega)]
    rfl
  | DURING =>
    have g := c11.mp rfl
    rw [a11.mpr (by omega)]
    rfl
  | CONTAINS =>
    have g := c12.mp rfl
    rw [a12.mpr (by omega)]
    rfl
  | EQUALS =>
    have g := c13.mp rfl
    rw [a13.mpr (by omega)]
    rfl

/-- Witness for C10 at a concrete pair classified MEETS. -/
theorem C10_classifiers_agree_witness :
    ∃ rc ra, Causality.get_interval_relation ⟨0, true⟩ ⟨10, true⟩ ⟨10, true⟩ ⟨20, true⟩ = .ok rc ∧
      Algebra.get_interval_relation 0 10 10 20 = .ok ra ∧
      rc.tag = ra.tag :=
  C10_classifiers_agree 0 10 10 20 (by decide) (by decide)

/-- Field conditions guaranteed by a successful `schemas.TemporalEvent`
construction. -/
lemma valid_event_fields (ts : DateTime) (d : Option Int) (en : Option DateTime)
    (h : Schemas.validates ts d en = .ok ()) :
    ts.aware = true ∧ (∀ v, d = some v → 0 ≤ v) ∧
      (∀ x, en = some x → x.aware = true ∧ ts.us < x.us) := by
  unfold Schemas.validates at h
  by_cases h1 : ts.aware = false
  · rw [if_pos h1] at h; cases h
  rw [if_neg h1] at h
  have hts : ts.aware = true := by
    cases hb : ts.aware
    · exact absurd hb h1
    · rfl
  by_cases h2 : d.any (fun v => decide (v < 0)) = true
  · rw [if_pos h2] at h; cases h
  rw [if_neg h2] at h
  by_cases h3 : en.any (fun x => decide (x.aware ≠ ts.aware)) = true
  · rw [if_pos h3] at h; cases h
  rw [if_neg h3] at h
  by_cases h4 : en.any (fun x => decide (x.us ≤ ts.us)) = true
  · rw [if_pos h4] at h; cases h
  refine ⟨hts, ?_, ?_⟩
  · intro v hv
    subst hv
    simp only [Option.any_some, decide_eq_true_eq] at h2
    omega
  · intro x hx
    subst hx
    simp only [Option.any_some, decide_eq_true_eq] at h3 h4
    constructor
    · cases hxa : x.aware
      · exact absurd (by rw [hxa, hts]; simp) h3
      · rfl
    · omega

/-- `_resolve_interval` on a valid event: the start is the event timestamp,
the end is aware and strictly later. -/
lemma resolve_of_valid (e : TemporalEvent) (h : ValidEvent e) :
    e.timestamp.aware = true ∧
    ∃ en : DateTime, Causality.resolve_interval e = .ok (e.timestamp, en) ∧
      en.aware = true ∧ e.timestamp.us < en.us := by
  obtain ⟨hts, hd, hen⟩ := valid_event_fields e.timestamp e.duration_minutes e.ends_at h
  refine ⟨hts, ?_⟩
  rcases e with ⟨ts, d, en⟩
  simp only at hts hd hen
  cases en with
  | some x =>
    obtain ⟨hxa, hxus⟩ := hen x rfl
    refine ⟨x, ?_, hxa, hxus⟩
    simp only [Causality.resolve_interval]
    rw [if_neg (by rw [hxa, hts]; simp), if_neg (by omega)]
  | none =>
    cases d with
    | none =>
      refine ⟨⟨ts.us + 1, ts.aware⟩, rfl, by rw [hts], by show ts.us < ts.us + 1; omega⟩
    | some v =>
      have hv := hd v rfl
      by_cases hz : ts.us + 60000000 * v ≤ ts.us
      · refine ⟨⟨ts.us + 1, ts.aware⟩, ?_, by rw [hts], by show ts.us < ts.us + 1; omega⟩
        simp only [Causality.resolve_interval]
        rw [if_neg (by simp), if_pos hz]
      · refine ⟨⟨ts.us + 60000000 * v, ts.aware⟩, ?_, by rw [hts],
          by show ts.us < ts.us + 60000000 * v; omega⟩
        simp only [Causality.resolve_interval]
        rw [if_neg (by simp), if_neg hz]

/-- With all four datetimes aware, `causality.get_interval_relation` is its
dispatch chain on the instants. -/
lemma get_rel_eq_classify (p q u v : DateTime)
    (hp : p.aware = true) (hq : q.aware = true) (hu : u.aware = true) (hv : v.aware = true) :
    Causality.get_interval_relation p q u v = Causality.classify p.us q.us u.us v.us := by
  unfold Causality.get_interval_relation
  rw [hp, hq, hu, hv]
  simp

/-- `get_relation` rewritten through the two resolutions. -/
lemma get_relation_eq (a b : TemporalEvent) (sa ea sb eb : DateTime)
    (hra : Causality.resolve_interval a = .ok (sa, ea))
    (hrb : Causality.resolve_interval b = .ok (sb, eb)) :
    Causality.get_relation a b =
      match Causality.get_interval_relation sa ea sb eb with
      | .error m => .error (.valueError m)
      | .ok r => .ok r := by
  unfold Causality.get_relation
  rw [hra, hrb]

/-- The relation of two valid events exists and is the dispatch chain's
verdict on the resolved endpoints. -/
lemma get_relation_char (a b : TemporalEvent) (ha : ValidEvent a) (hb : ValidEvent b) :
    ∃ ea eb r, Causality.resolve_interval a = .ok (a.timestamp, ea) ∧
      Causality.resolve_interval b = .ok (b.timestamp, eb) ∧
      Causality.get_relation a b = .ok r ∧
      Causality.classify a.timestamp.us ea.us b.timestamp.us eb.us = .ok r ∧
      a.timestamp.us < ea.us ∧ b.timestamp.us < eb.us := by
  obtain ⟨hta, ea, hra, haw, hlt⟩ := resolve_of_valid a ha
  obtain ⟨htb, eb, hrb, hbw, hltb⟩ := resolve_of_valid b hb
  obtain ⟨r, hok, _⟩ :=
    causality_classify_char a.timestamp.us ea.us b.timestamp.us eb.us hlt hltb
  have hgi : Causality.get_interval_relation a.timestamp ea b.timestamp eb = .ok r := by
    rw [get_rel_eq_classify _ _ _ _ hta haw htb hbw]
    exact hok
  refine ⟨ea, eb, r, hra, hrb, ?_, hok, hlt, hltb⟩
  rw [get_relation_eq a b _ _ _ _ hra hrb, hgi]

/-- On valid intervals the plausible set is exactly `start_a ≤ start_b`. -/
lemma plausible_iff_start_le (sa ea sb eb : Int) (ha : sa < ea) (hb : sb < eb)
    (r : AllenRelation) (hok : Causality.classify sa ea sb eb = .ok r) :
    r ∈ Causality.plausible_relations ↔ sa ≤ sb := by
  obtain ⟨r', hok', c1, c2, c3, c4, c5, c6, c7, c8, c9, c10, c11, c12, c13⟩ := causality_classify_char sa ea sb eb ha hb
  rw [hok] at hok'
  injection hok'.symm with hr
  subst hr
  cases r' with
  | BEFORE =>
    have g := c1.mp rfl
    simp only [Causality.plausible_relations]
    simp
    omega
  | AFTER =>
    have g := c2.mp rfl
    simp only [Causality.plausible_relations]
    simp
    omega
  | MEETS =>
    have g := c3.mp rfl
    simp only [Causality.plausible_relations]
    simp
    omega
  | MET_BY =>
    have g := c4.mp rfl
    simp only [Causality.plausible_relations]
    simp
    omega
  | OVERLAPS =>
    have g := c5.mp rfl
    simp only [Causality.plausible_relations]
    simp
    omega
  | OVERLAPPED_BY =>
    have g := c6.mp rfl
    simp only [Causality.plausible_relations]
    simp
    omega
  | STARTS =>
    have g := c7.mp rfl
    simp only [Causality.plausible_relations]
    simp
    omega
  | STARTED_BY =>
    have g := c8.mp rfl
    simp only [Causality.plausible_relations]
    simp
    omega
  | FINISHES =>
    have g := c9.mp rfl
    simp only [Causality.plausible_relations]
    simp
    omega
  | FINISHED_BY =>
    have g := c10.mp rfl
    simp only [Causality.plausible_relations]
    simp
    omega
  | DURING =>
    have g := c11.mp rfl
    simp only [Causality.plausible_relations]
    simp
    omega
  | CONTAINS =>
    have g := c12.mp rfl
    simp only [Causality.plausible_relations]
    simp
    omega
  | EQUALS =>
    have g := c13.mp rfl
    simp only [Causality.plausible_relations]
    simp
    omega

/-- C5: on valid events, `is_plausible_cause` is true exactly when the
Allen relation of the resolved intervals lies in the plausible set,
equivalently exactly when the cause's resolved start (its timestamp) is
not after the effect's; and a `ValueError` from the algebra is trapped to
`False` rather than propagated. -/
theorem C5_plausible_cause_spec (cause effect : TemporalEvent) :
    (ValidEvent cause → ValidEvent effect →
      ∃ r, Causality.get_relation cause effect = .ok r ∧
        (Causality.is_plausible_cause cause effect = .ok true ↔
          r ∈ Causality.plausible_relations) ∧
        (Causality.is_plausible_cause cause effect = .ok true ↔
          cause.timestamp.us ≤ effect.timestamp.us)) ∧
    (∀ m, Causality.get_relation cause effect = .error (.valueError m) →
      Causality.is_plausible_cause cause effect = .ok false) := by
  constructor
  · intro hc he
    obtain ⟨ea, eb, r, hra, hrb, hrel, hcls, hlta, hltb⟩ := get_relation_char cause effect hc he
    have hmem := plausible_iff_start_le _ _ _ _ hlta hltb r hcls
    refine ⟨r, hrel, ?_, ?_⟩
    · unfold Causality.is_plausible_cause
      rw [hrel]
      simp
    · unfold Causality.is_plausible_cause
      rw [hrel]
      simp [hmem]
  · intro m hm
    unfold Causality.is_plausible_cause
    rw [hm]

/-- Witness for C5: two concrete point events (plausible direction), and a
naive-timestamp event whose algebra `ValueError` is trapped to `False`. -/
theorem C5_plausible_cause_spec_witness :
    (∃ r, Causality.get_relation ⟨⟨0, true⟩, none, none⟩ ⟨⟨5, true⟩, none, none⟩ = .ok r ∧
      (Causality.is_plausible_cause ⟨⟨0, true⟩, none, none⟩ ⟨⟨5, true⟩, none, none⟩ = .ok true ↔
        r ∈ Causality.plausible_relations) ∧
      (Causality.is_plausible_cause ⟨⟨0, true⟩, none, none⟩ ⟨⟨5, true⟩, none, none⟩ = .ok true ↔
        (0 : Int) ≤ 5)) ∧
    Causality.is_plausible_cause ⟨⟨0, false⟩, none, none⟩ ⟨⟨5, true⟩, none, none⟩ = .ok false := by
  constructor
  · exact (C5_plausible_cause_spec ⟨⟨0, true⟩, none, none⟩ ⟨⟨5, true⟩, none, none⟩).1 rfl rfl
  · exact (C5_plausible_cause_spec ⟨⟨0, false⟩, none, none⟩ ⟨⟨5, true⟩, none, none⟩).2
      "start_a must be timezone-aware" rfl

/-- C7: every valid event, point events included (they are promoted to the
epsilon interval), relates to itself by EQUALS, so it is a plausible cause
of itself. -/
theorem C7_self_plausible (a : TemporalEvent) (h : ValidEvent a) :
    Causality.get_relation a a = .ok .EQUALS ∧
      Causality.is_plausible_cause a a = .ok true := by
  obtain ⟨ea, eb, r, hra, hrb, hrel, hcls, hlt, _⟩ := get_relation_char a a h h
  have heq : ea = eb := by
    have := hra.symm.trans hrb
    simpa using this
  subst heq
  obtain ⟨r', hok', c1, c2, c3, c4, c5, c6, c7, c8, c9, c10, c11, c12, c13⟩ :=
    causality_classify_char a.timestamp.us ea.us a.timestamp.us ea.us hlt hlt
  have hr'eq : r' = .EQUALS := c13.mpr ⟨rfl, rfl⟩
  have hre : r = .EQUALS := by
    rw [hcls] at hok'
    injection hok' with h'
    exact h'.trans hr'eq
  subst hre
  refine ⟨hrel, ?_⟩
  unfold Causality.is_plausible_cause
  rw [hrel]
  rfl

/-- Witness for C7: a concrete valid point event. -/
theorem C7_self_plausible_witness :
    Causality.get_relation ⟨⟨0, true⟩, none, none⟩ ⟨⟨0, true⟩, none, none⟩ = .ok .EQUALS ∧
      Causality.is_plausible_cause ⟨⟨0, true⟩, none, none⟩ ⟨⟨0, true⟩, none, none⟩ = .ok true :=
  C7_self_plausible ⟨⟨0, true⟩, none, none⟩ rfl

/-- `MaxDelayRule.validate` on aware inputs: result fields. -/
lemma validate_aware (m : Int) (t r : DateTime) (ht : t.aware = true) (hr : r.aware = true) :
    ∃ res, Validator.MaxDelayRule.validate ⟨m⟩ t r = .ok res ∧
      res.drift = t.us - (r.us + m) ∧ (res.is_compliant = true ↔ t.us ≤ r.us + m) := by
  unfold Validator.MaxDelayRule.validate
  rw [if_neg (by simp [ht, hr])]
  refine ⟨_, rfl, rfl, ?_⟩
  simp

/-- C3: a `MaxDelayRule` with non-negative delay validates any aware pair
with drift `target - (reference + max_delay)` on absolute instants and
compliance exactly when the drift is non-positive; at the boundary
`validate(ref + d, ref)` the drift is zero and the check passes. -/
theorem C3_max_delay_rule (d : Int) (hd : 0 ≤ d) (target ref : DateTime)
    (ht : target.aware = true) (hr : ref.aware = true) :
    ∃ rule res res0, Validator.MaxDelayRule.make d = .ok rule ∧
      rule.validate target ref = .ok res ∧
      res.drift = target.us - (ref.us + d) ∧
      (res.is_compliant = true ↔ res.drift ≤ 0) ∧
      rule.validate ⟨ref.us + d, ref.aware⟩ ref = .ok res0 ∧
      res0.drift = 0 ∧ res0.is_compliant = true := by
  have hmk : Validator.MaxDelayRule.make d = .ok ⟨d⟩ := by
    unfold Validator.MaxDelayRule.make
    rw [if_neg (by omega)]
  obtain ⟨res, hv, hdr, hic⟩ := validate_aware d target ref ht hr
  obtain ⟨res0, hv0, hdr0, hic0⟩ := validate_aware d ⟨ref.us + d, ref.aware⟩ ref (by rw [hr]) hr
  refine ⟨⟨d⟩, res, res0, hmk, hv, hdr, ?_, hv0, ?_, ?_⟩
  · rw [hic, hdr]
    omega
  · rw [hdr0]
    show ref.us + d - (ref.us + d) = 0
    omega
  · exact hic0.mpr (by show ref.us + d ≤ ref.us + d; omega)

/-- Witness for C3 at a concrete rule and instants. -/
theorem C3_max_delay_rule_witness :
    ∃ rule res res0, Validator.MaxDelayRule.make 60 = .ok rule ∧
      rule.validate ⟨100, true⟩ ⟨50, true⟩ = .ok res ∧
      res.drift = 100 - (50 + 60) ∧
      (res.is_compliant = true ↔ res.drift ≤ 0) ∧
      rule.validate ⟨50 + 60, true⟩ ⟨50, true⟩ = .ok res0 ∧
      res0.drift = 0 ∧ res0.is_compliant = true :=
  C3_max_delay_rule 60 (by decide) ⟨100, true⟩ ⟨50, true⟩ rfl rfl

/-- `schemas.TemporalEvent` failure characterization (aware inputs). -/
lemma schemas_error_iff (ts : DateTime) (d : Option Int) (en : Option DateTime)
    (hts : ts.aware = true) (hen : ∀ x, en = some x → x.aware = true) :
    (∃ m, Schemas.validates ts d en = .error (.valueError m)) ↔
      ((∃ x, en = some x ∧ x.us ≤ ts.us) ∨ (∃ v, d = some v ∧ v < 0)) := by
  cases d with
  | none =>
    cases en with
    | none => simp [Schemas.validates, hts]
    | some x =>
      have hx := hen x rfl
      by_cases hxle : x.us ≤ ts.us <;>
        simp [Schemas.validates, hts, hx, hxle]
  | some v =>
    by_cases hv : v < 0
    · cases en with
      | none => simp [Schemas.validates, hts, hv]
      | some x =>
        have hx := hen x rfl
        simp [Schemas.validates, hts, hv, hx]
    · cases en with
      | none => simp [Schemas.validates, hts, hv]
      | some x =>
        have hx := hen x rfl
        by_cases hxle : x.us ≤ ts.us <;>
          simp [Schemas.validates, hts, hv, hx, hxle]

/-- `models.TemporalEvent` failure characterization (aware inputs). -/
lemma models_error_iff (ts : DateTime) (d : Option Int) (en : Option DateTime)
    (hts : ts.aware = true) (hen : ∀ x, en = some x → x.aware = true) :
    (∃ m, Models.validates ts d en = .error (.valueError m)) ↔
      ((∃ v, d = some v ∧ v < 0) ∨
       (∃ v x, d = some v ∧ en = some x ∧ ts.us + 60000000 * v ≠ x.us)) := by
  cases d with
  | none =>
    cases en with
    | none => simp [Models.validates, hts]
    | some x =>
      have hx := hen x rfl
      simp [Models.validates, hts, hx]
  | some v =>
    by_cases hv : v < 0
    · cases en with
      | none => simp [Models.validates, hts, hv]
      | some x =>
        have hx := hen x rfl
        simp [Models.validates, hts, hv, hx]
    · cases en with
      | none => simp [Models.validates, hts, hv]
      | some x =>
        have hx := hen x rfl
        by_cases hco : ts.us + 60000000 * v = x.us <;>
          simp [Models.validates, hts, hv, hx, hco]

/-- C4 counterexample: `schemas.TemporalEvent` accepts a timestamp with
`duration_minutes = 60` and an `ends_at` only 30 minutes later — the
claim's consistency disjunct does not make construction fail there. -/
theorem C4_counterexample_inconsistent_accepted :
    Schemas.validates ⟨0, true⟩ (some 60) (some ⟨1800000000, true⟩) = .ok () ∧
    (0 : Int) + 60000000 * 60 ≠ 1800000000 := by
  constructor
  · rfl
  · decide

/-- C4 (amended): with aware inputs, `schemas.TemporalEvent` construction
fails exactly on `ends_at ≤ timestamp` or a negative duration; the
duration/ends_at consistency check lives only in the parallel
`models.TemporalEvent`, which fails exactly on a negative duration or an
inconsistent pair and has no `ends_at > timestamp` check. -/
theorem C4_event_config_errors (ts : DateTime) (d : Option Int) (en : Option DateTime)
    (hts : ts.aware = true) (hen : ∀ x, en = some x → x.aware = true) :
    ((∃ m, Schemas.validates ts d en = .error (.valueError m)) ↔
      ((∃ x, en = some x ∧ x.us ≤ ts.us) ∨ (∃ v, d = some v ∧ v < 0))) ∧
    ((∃ m, Models.validates ts d en = .error (.valueError m)) ↔
      ((∃ v, d = some v ∧ v < 0) ∨
       (∃ v x, d = some v ∧ en = some x ∧ ts.us + 60000000 * v ≠ x.us))) :=
  ⟨schemas_error_iff ts d en hts hen, models_error_iff ts d en hts hen⟩

/-- Witness for C4 at a negative-duration event, rejected by both models. -/
theorem C4_event_config_errors_witness :
    ((∃ m, Schemas.validates ⟨0, true⟩ (some (-5)) none = .error (.valueError m)) ↔
      ((∃ x, (none : Option DateTime) = some x ∧ x.us ≤ (0 : Int)) ∨
       (∃ v, (some (-5) : Option Int) = some v ∧ v < 0))) ∧
    ((∃ m, Models.validates ⟨0, true⟩ (some (-5)) none = .error (.valueError m)) ↔
      ((∃ v, (some (-5) : Option Int) = some v ∧ v < 0) ∨
       (∃ v x, (some (-5) : Option Int) = some v ∧ (none : Option DateTime) = some x ∧
         (0 : Int) + 60000000 * v ≠ x.us))) :=
  C4_event_config_errors ⟨0, true⟩ (some (-5)) none rfl (by intro x hx; cases hx)

/-- C9 counterexample: `_parse_duration(2.5, "day")` yields a two-day
delta, not the spec's two and a half days (216000000000 microseconds). -/
theorem C9_counterexample_fractional_truncated :
    Timeline.applyFixedDelta (Timeline.parse_duration (5 / 2) .days) 0 =
      some (2 * 86400000000) ∧
    Timeline.specFixedDelta (5 / 2) .days 0 = some ((216000000000 : Rat)) ∧
    ((2 * 86400000000 : Rat) ≠ 216000000000) := by
  have htr : Timeline.truncToZero (5 / 2) = 2 := by
    unfold Timeline.truncToZero
    rw [if_pos (by norm_num), Int.floor_eq_iff]
    constructor <;> norm_num
  have hpd : Timeline.parse_duration (5 / 2) .days = (.days, 2) := by
    unfold Timeline.parse_duration
    show (if |(5 / 2 : Rat) - ((Timeline.truncToZero (5 / 2) : Int) : Rat)| < 1 / 1000
          then (Timeline.DurationUnit.days, Timeline.truncToZero (5 / 2))
          else (Timeline.DurationUnit.days, Timeline.truncToZero (5 / 2))) = (.days, 2)
    rw [htr]
    split_ifs <;> rfl
  refine ⟨?_, ?_, by norm_num⟩
  · rw [hpd]
    simp [Timeline.applyFixedDelta, Timeline.DurationUnit.fixedMicros]
  · simp [Timeline.specFixedDelta, Timeline.DurationUnit.fixedMicros]
    norm_num

/-- C9 (amended): `_parse_duration` truncates every fractional value
toward zero, fixed and variable units alike; the delta applied for a fixed
unit is the exact (truncated) whole number of that unit. -/
theorem C9_duration_parser_truncates (v : Rat) (u : Timeline.DurationUnit) (t : Int) :
    Timeline.parse_duration v u = (u, Timeline.truncToZero v) ∧
    (∀ micros, u.fixedMicros = some micros →
      Timeline.applyFixedDelta (Timeline.parse_duration v u) t =
        some (t + Timeline.truncToZero v * micros)) := by
  have h1 : Timeline.parse_duration v u = (u, Timeline.truncToZero v) := by
    unfold Timeline.parse_duration
    show (if |v - ((Timeline.truncToZero v : Int) : Rat)| < 1 / 1000
          then (u, Timeline.truncToZero v) else (u, Timeline.truncToZero v)) =
        (u, Timeline.truncToZero v)
    split_ifs <;> rfl
  refine ⟨h1, ?_⟩
  intro micros hm
  rw [h1]
  simp [Timeline.applyFixedDelta, hm]

/-- Witness for C9 at value 2.5 and unit day. -/
theorem C9_duration_parser_truncates_witness :
    Timeline.parse_duration (5 / 2) .days = (.days, Timeline.truncToZero (5 / 2)) ∧
    Timeline.applyFixedDelta (Timeline.parse_duration (5 / 2) .days) 0 =
      some (0 + Timeline.truncToZero (5 / 2) * 86400000000) :=
  ⟨(C9_duration_parser_truncates (5 / 2) .days 0).1,
   (C9_duration_parser_truncates (5 / 2) .days 0).2 86400000000 rfl⟩

/-- Filtering one key value through a stable ordered insertion. -/
lemma filter_key_orderedInsert (key : TemporalEvent → Int) (t : Int) (a : TemporalEvent)
    (l : List TemporalEvent) :
    ((l.orderedInsert (fun x y => key x ≤ key y) a).filter (fun x => decide (key x = t))) =
      if key a = t then a :: l.filter (fun x => decide (key x = t))
      else l.filter (fun x => decide (key x = t)) := by
  induction l with
  | nil =>
    by_cases hat : key a = t <;> simp [List.orderedInsert, List.filter, hat]
  | cons b l ih =>
    show (if key a ≤ key b then _ else _ : List TemporalEvent).filter _ = _
    by_cases hab : key a ≤ key b
    · rw [if_pos hab]
      by_cases hat : key a = t <;> simp [List.filter_cons, hat]
    · rw [if_neg hab]
      by_cases hbt : key b = t
      · have hat : ¬ key a = t := fun h => hab (by rw [h, hbt])
        simp [List.filter_cons, hbt, hat, ih]
      · by_cases hat : key a = t <;> simp [List.filter_cons, hbt, hat, ih]

/-- The stable insertion sort preserves, for each key value, the sublist of
elements carrying that key, in order. -/
lemma filter_key_insertionSort (key : TemporalEvent → Int) (t : Int) (l : List TemporalEvent) :
    ((l.insertionSort (fun x y => key x ≤ key y)).filter (fun x => decide (key x = t))) =
      l.filter (fun x => decide (key x = t)) := by
  induction l with
  | nil => rfl
  | cons a l ih =>
    show ((l.insertionSort _).orderedInsert _ a).filter _ = _
    rw [filter_key_orderedInsert]
    by_cases hat : key a = t <;> simp [List.filter_cons, hat, ih]

/-- C8: the sequence returned by `extract_events` — the resolved events
passed through the final `sort(key=timestamp)` — is sorted ascending by
timestamp, is a permutation of the resolved events, and events with equal
timestamps keep their insertion order (stability, stated per key value). -/
theorem C8_output_sorted_and_stable (l : List TemporalEvent) :
    (∀ i j : Fin (Timeline.sort_events l).length, (i : Nat) < (j : Nat) →
      ((Timeline.sort_events l).get i).timestamp.us ≤
        ((Timeline.sort_events l).get j).timestamp.us) ∧
    ((Timeline.sort_events l).Perm l) ∧
    (∀ t : Int, ((Timeline.sort_events l).filter (fun e => decide (e.timestamp.us = t))) =
      l.filter (fun e => decide (e.timestamp.us = t))) := by
  refine ⟨?_, ?_, ?_⟩
  · haveI : IsTotal TemporalEvent (fun a b => a.timestamp.us ≤ b.timestamp.us) :=
      ⟨fun a b => le_total _ _⟩
    haveI : IsTrans TemporalEvent (fun a b => a.timestamp.us ≤ b.timestamp.us) :=
      ⟨fun _ _ _ h1 h2 => le_trans h1 h2⟩
    have hs := List.sorted_insertionSort (fun a b : TemporalEvent =>
      a.timestamp.us ≤ b.timestamp.us) l
    exact (List.pairwise_iff_get.mp hs)
  · exact List.perm_insertionSort _ l
  · intro t
    exact filter_key_insertionSort (fun e => e.timestamp.us) t l

/-- Witness for C8 on a concrete two-event list that the sort reorders. -/
theorem C8_output_sorted_and_stable_witness :
    ((Timeline.sort_events [⟨⟨5, true⟩, none, none⟩, ⟨⟨3, true⟩, none, none⟩]).get
        ⟨0, by decide⟩).timestamp.us ≤
      ((Timeline.sort_events [⟨⟨5, true⟩, none, none⟩, ⟨⟨3, true⟩, none, none⟩]).get
        ⟨1, by decide⟩).timestamp.us :=
  (C8_output_sorted_and_stable [⟨⟨5, true⟩, none, none⟩, ⟨⟨3, true⟩, none, none⟩]).1
    ⟨0, by decide⟩ ⟨1, by decide⟩ (by decide)

/-- A score is zero when the anchor and target share no (stop-word-free)
token. -/
lemma score_eq_zero_of_inter_empty (anchor target : List Char)
    (h : ((Timeline.normalize anchor).filter
          (fun w => decide (¬ w ∈ Timeline.stop_words))).filter
        (fun w => decide (w ∈ (Timeline.normalize target).filter
          (fun w => decide (¬ w ∈ Timeline.stop_words)))) = []) :
    Timeline._calculate_semantic_score anchor target = 0 := by
  show (if ((Timeline.normalize anchor).filter
          (fun w => decide (¬ w ∈ Timeline.stop_words))).isEmpty then (0 : Rat)
        else ((((Timeline.normalize anchor).filter
            (fun w => decide (¬ w ∈ Timeline.stop_words))).filter
          (fun w => decide (w ∈ (Timeline.normalize target).filter
            (fun w => decide (¬ w ∈ Timeline.stop_words))))).length : Rat) /
          (((Timeline.normalize anchor).filter
            (fun w => decide (¬ w ∈ Timeline.stop_words))).length : Rat)) = 0
  rw [h]
  split_ifs
  · rfl
  · simp

/-- In the concrete state, Strategy A links the candidate to the Jan 1
event through the free-standing occurrence of "gamma delta" (distance 64). -/
lemma c2_strategyA : Timeline.strategyA c2text c2cand [c2meta] = some (c2event, 64) := by
  decide

/-- In the concrete state, no resolved event reaches the 0.5 fuzzy
threshold: the candidate list of Strategy B is empty. -/
lemma c2_fuzzy_empty : Timeline.fuzzyCandidates c2text c2cand [c2meta] = [] := by
  have h1 : Timeline._calculate_semantic_score c2cand.anchor_phrase
      (Timeline.maskedContext c2text c2meta c2cand.start c2cand.stop) = 0 :=
    score_eq_zero_of_inter_empty _ _ (by decide)
  have h2 : Timeline._calculate_semantic_score c2cand.anchor_phrase
      c2meta.event.source_snippet = 0 :=
    score_eq_zero_of_inter_empty _ _ (by decide)
  simp only [Timeline.fuzzyCandidates, List.foldr]
  rw [h1, h2]
  rw [if_neg (by norm_num)]

/-- The sort key `(-score, dist)` is total. -/
lemma fuzzyLE_total (a b : Timeline.FuzzyCandidate) :
    Timeline.fuzzyLE a b ∨ Timeline.fuzzyLE b a := by
  unfold Timeline.fuzzyLE
  rcases lt_trichotomy a.score b.score with h | h | h
  · exact Or.inr (Or.inl h)
  · rcases le_total a.dist b.dist with hd | hd
    · exact Or.inl (Or.inr ⟨h, hd⟩)
    · exact Or.inr (Or.inr ⟨h.symm, hd⟩)
  · exact Or.inl (Or.inl h)

/-- The sort key `(-score, dist)` is transitive. -/
lemma fuzzyLE_trans (a b c : Timeline.FuzzyCandidate) :
    Timeline.fuzzyLE a b → Timeline.fuzzyLE b c → Timeline.fuzzyLE a c := by
  unfold Timeline.fuzzyLE
  rintro (h | ⟨he, hd⟩) (h' | ⟨he', hd'⟩)
  · exact Or.inl (lt_trans h' h)
  · exact Or.inl (he' ▸ h)
  · exact Or.inl (by rw [he]; exact h')
  · exact Or.inr ⟨he.trans he', le_trans hd hd'⟩

/-- A conditional-cons fold is a `filterMap`. -/
lemma foldr_cond_cons_eq_filterMap {α β : Type} (p : α → Prop) [DecidablePred p]
    (g : α → β) (l : List α) :
    l.foldr (fun a acc => if p a then g a :: acc else acc) [] =
      l.filterMap (fun a => if p a then some (g a) else none) := by
  induction l with
  | nil => rfl
  | cons a l ih =>
    simp only [List.foldr, List.filterMap_cons]
    split_ifs with h
    · simp [ih]
    · simp [ih]

/-- C2 (amended): in the per-candidate step of Pass 4, (a) the fuzzy match
candidates are exactly the resolved events whose best score (masked
context or snippet) reaches 0.5, with distance `max(0, signed gap)`;
(b) with no exact-occurrence match, the candidate resolves exactly against
the head of the stable `(−score, distance)` sort — or is skipped when no
fuzzy candidate exists; (c) with an exact-occurrence match `(e, d)`, the
candidate resolves against `e` even when the fuzzy list is empty, and a
fuzzy best overrides `e` only with score ≥ 1.0 and distance < d;
(d) the sorted head is minimal under `(−score, distance)`. -/
theorem C2_anchor_resolution_rule (text : List Char) (cand : Timeline.AnchorCandidate)
    (metas : List Timeline.ResolvedMeta) :
    (Timeline.fuzzyCandidates text cand metas = metas.filterMap (fun meta =>
        if max (Timeline._calculate_semantic_score cand.anchor_phrase
              (Timeline.maskedContext text meta cand.start cand.stop))
            (Timeline._calculate_semantic_score cand.anchor_phrase
              meta.event.source_snippet) ≥ 1 / 2
        then some ⟨meta.event,
          max (Timeline._calculate_semantic_score cand.anchor_phrase
              (Timeline.maskedContext text meta cand.start cand.stop))
            (Timeline._calculate_semantic_score cand.anchor_phrase
              meta.event.source_snippet),
          max 0 (if cand.start > meta.start then (cand.start : Int) - (meta.stop : Int)
                 else (meta.start : Int) - (cand.stop : Int))⟩
        else none)) ∧
    (Timeline.strategyA text cand metas = none →
      Timeline.resolveCandidateStep text cand metas =
        (Timeline.sortFuzzy (Timeline.fuzzyCandidates text cand metas)).head?.map (·.event)) ∧
    (∀ e d, Timeline.strategyA text cand metas = some (e, d) →
      (Timeline.fuzzyCandidates text cand metas = [] →
        Timeline.resolveCandidateStep text cand metas = some e) ∧
      (∀ best rest,
        Timeline.sortFuzzy (Timeline.fuzzyCandidates text cand metas) = best :: rest →
        Timeline.resolveCandidateStep text cand metas =
          some (if best.score ≥ 1 ∧ best.dist < d then best.event else e))) ∧
    (∀ best rest,
      Timeline.sortFuzzy (Timeline.fuzzyCandidates text cand metas) = best :: rest →
      ∀ x ∈ Timeline.fuzzyCandidates text cand metas,
        best.score > x.score ∨ (best.score = x.score ∧ best.dist ≤ x.dist)) := by
  refine ⟨?_, ?_, ?_, ?_⟩
  · exact foldr_cond_cons_eq_filterMap
      (fun meta : Timeline.ResolvedMeta =>
        max (Timeline._calculate_semantic_score cand.anchor_phrase
            (Timeline.maskedContext text meta cand.start cand.stop))
          (Timeline._calculate_semantic_score cand.anchor_phrase
            meta.event.source_snippet) ≥ 1 / 2)
      (fun meta => (⟨meta.event,
        max (Timeline._calculate_semantic_score cand.anchor_phrase
            (Timeline.maskedContext text meta cand.start cand.stop))
          (Timeline._calculate_semantic_score cand.anchor_phrase
            meta.event.source_snippet),
        max 0 (if cand.start > meta.start then (cand.start : Int) - (meta.stop : Int)
               else (meta.start : Int) - (cand.stop : Int))⟩ : Timeline.FuzzyCandidate))
      metas
  · intro hA
    simp only [Timeline.resolveCandidateStep]
    rw [hA]
    cases hs : Timeline.sortFuzzy (Timeline.fuzzyCandidates text cand metas) with
    | nil => simp
    | cons b rest => simp
  · intro e d hA
    constructor
    · intro hfc
      simp only [Timeline.resolveCandidateStep]
      rw [hfc, hA]
      rfl
    · intro best rest hs
      simp only [Timeline.resolveCandidateStep]
      rw [hs, hA]
      show (if best.score ≥ 1 ∧ best.dist < d then some best.event else some e) =
        some (if best.score ≥ 1 ∧ best.dist < d then best.event else e)
      split_ifs <;> rfl
  · intro best rest hs x hx
    haveI : IsTotal Timeline.FuzzyCandidate Timeline.fuzzyLE := ⟨fuzzyLE_total⟩
    haveI : IsTrans Timeline.FuzzyCandidate Timeline.fuzzyLE :=
      ⟨fun a b c => fuzzyLE_trans a b c⟩
    have hmem : x ∈ best :: rest := by
      rw [← hs]
      exact (List.perm_insertionSort Timeline.fuzzyLE _).mem_iff.mpr hx
    have hsorted := List.sorted_insertionSort Timeline.fuzzyLE
      (Timeline.fuzzyCandidates text cand metas)
    rw [show (Timeline.fuzzyCandidates text cand metas).insertionSort Timeline.fuzzyLE =
      Timeline.sortFuzzy (Timeline.fuzzyCandidates text cand metas) from rfl, hs] at hsorted
    rcases List.mem_cons.mp hmem with rfl | hmem'
    · exact Or.inr ⟨rfl, le_refl _⟩
    · exact (List.pairwise_cons.mp hsorted).1 x hmem'

/-- C2 counterexample: in the concrete state, no fuzzy candidate reaches
0.5, yet the candidate is resolved (against the Jan 1 event, found by the
exact-occurrence search) — it is not skipped. -/
theorem C2_counterexample_exact_match_resolves :
    Timeline.fuzzyCandidates c2text c2cand [c2meta] = [] ∧
    Timeline.resolveCandidateStep c2text c2cand [c2meta] = some c2event := by
  refine ⟨c2_fuzzy_empty, ?_⟩
  simp only [Timeline.resolveCandidateStep]
  rw [c2_fuzzy_empty, c2_strategyA]
  rfl

/-- Witness for C2 at the concrete state: the amended rule's exact-match
branch applies. -/
theorem C2_anchor_resolution_rule_witness :
    Timeline.resolveCandidateStep c2text c2cand [c2meta] = some c2event :=
  ((C2_anchor_resolution_rule c2text c2cand [c2meta]).2.2.1 c2event 64 c2_strategyA).1
    c2_fuzzy_empty
